import Mathlib

/-
Verification of the task-orchestration and claim-graph core of the
danish-medical-platform repository (src/app/main.py, src/app/models.py,
src/app/agents.py, src/app/db.py).

Shallow embedding conventions:
* Python dicts and the networkx node/edge attribute maps are modelled as
  association lists (`List (κ × α)`) with the generic `lookupA`/`upsert`
  operations below; insertion order is kept, as in CPython / networkx.
* The CrewAI `crew.kickoff()` call and the Chroma `collection.add` call are
  external effects; their outcome is a `RunnerOutcome` parameter.
* The Neo4j mirror write is an external effect; its outcome is an
  `Except String Unit` parameter, and a Lean function returns the
  in-process state next to an `Option String` that is `some msg` exactly
  when the Python function lets an exception with message `msg` escape.
* `float` evidence strengths are only stored and compared, never computed
  with, so they are carried as `Rat`.
-/

namespace App

/-! ### Generic association-list operations (model of Python dict / networkx maps) -/

def lookupA {κ α : Type} [DecidableEq κ] : List (κ × α) → κ → Option α
  | [], _ => none
  | (k', a) :: rest, k => if k' = k then some a else lookupA rest k

/-- Insert-or-modify: if `k` is bound, apply `f` to its value (first binding);
otherwise append `(k, f a₀)` at the end, as Python dict insertion does. -/
def upsert {κ α : Type} [DecidableEq κ] (l : List (κ × α)) (k : κ) (f : α → α) (a₀ : α) :
    List (κ × α) :=
  match l with
  | [] => [(k, f a₀)]
  | (k', a) :: rest => if k' = k then (k', f a) :: rest else (k', a) :: upsert rest k f a₀

def hasKey {κ α : Type} [DecidableEq κ] (l : List (κ × α)) (k : κ) : Bool :=
  (lookupA l k).isSome

/-- Number of bindings of key `k` (1 for a well-formed table, used to state
the no-duplicate claims). -/
def countKey {κ α : Type} [DecidableEq κ] : List (κ × α) → κ → Nat
  | [], _ => 0
  | (k', _) :: rest, k => (if k' = k then 1 else 0) + countKey rest k

/-! ### Data model (src/app/models.py) -/

/-- `ResearchTask.status` values; a plain string in the source
(`# pending, running, completed, failed`). -/
inductive Status where
  | pending
  | running
  | completed
  | failed
  deriving DecidableEq, Repr

/-- A JSON-ish value, for the untyped `request: dict` body of `POST /research`. -/
inductive Value where
  | vNone : Value
  | vStr : String → Value
  | vInt : Int → Value
  | vBool : Bool → Value
  deriving DecidableEq, Repr

/-- Python truthiness, as used by `if not topic:` in `start_research`. -/
def Value.truthy : Value → Bool
  | Value.vNone => false
  | Value.vStr s => !(decide (s = ""))
  | Value.vInt n => decide (n ≠ 0)
  | Value.vBool b => b

/-- `ResearchTask` (src/app/models.py:42-48).  `created_at` carries no
claim-relevant information and is omitted; `result` is `Optional[Dict[str, Any]]`,
modelled as an association list of string pairs (the code only ever stores
`{"output": str(result)}`). -/
structure ResearchTask where
  task_id : String
  topic : String
  status : Status
  logs : List String
  result : Option (List (String × String))
  deriving DecidableEq, Repr

/-- `ResearchTask(task_id=..., topic=...)` with the pydantic field defaults:
`status="pending"`, `logs=[]`, `result=None`. -/
def mkResearchTask (task_id : String) (topic : String) : ResearchTask :=
  { task_id := task_id, topic := topic, status := Status.pending, logs := [], result := none }

/-- The in-memory task registry `tasks: Dict[str, ResearchTask]` (src/app/main.py:28). -/
abbrev Tasks : Type := List (String × ResearchTask)

def lookupTask (ts : Tasks) (id : String) : Option ResearchTask :=
  lookupA ts id

/-- `tasks[task_id].field = value`: point mutation of an existing record
(a missing id is never mutated; in Python it would raise `KeyError`). -/
def updateTask : Tasks → String → (ResearchTask → ResearchTask) → Tasks
  | [], _, _ => []
  | (k, t) :: rest, id, f =>
      (if k = id then (k, f t) else (k, t)) :: updateTask rest id f

/-! ### Object Store (Chroma `collection`, src/app/db.py:18-28, src/app/agents.py:95-99) -/

/-- One document inserted by `collection.add(documents=..., metadatas=..., ids=...)`. -/
structure ObjectDoc where
  id : String
  document : String
  task_id : String
  topic : String
  deriving DecidableEq, Repr

abbrev ObjectStore : Type := List ObjectDoc

/-! ### Agent Runner (src/app/agents.py `ResearchCrew.run`) -/

/-- Outcome of the two external calls inside `ResearchCrew.run`:
`crew.kickoff()` and `collection.add`.  `kickoffRaises` is an exception from
the CrewAI workflow; `addRaises` is `kickoff` returning `r` and then
`collection.add` raising without inserting; `success` is both succeeding. -/
inductive RunnerOutcome where
  | kickoffRaises : String → RunnerOutcome
  | addRaises : String → String → RunnerOutcome
  | success : String → RunnerOutcome
  deriving DecidableEq, Repr

/-- `some msg` when the modelled `ResearchCrew.run` raises with message `msg`. -/
def runnerError : RunnerOutcome → Option String
  | RunnerOutcome.kickoffRaises m => some m
  | RunnerOutcome.addRaises m _ => some m
  | RunnerOutcome.success _ => none

/-- The observable side effects of one task workflow, in program order
(used to settle the side-effect-ordering claims). -/
inductive Effect where
  | logAppend : String → Effect
  | statusSet : Status → Effect
  | resultSet : Effect
  | storeWrite : String → Effect
  deriving DecidableEq, Repr

structure ResearchCrew where
  task_id : String

/-- `ResearchCrew.run` (src/app/agents.py:30-101): runs `crew.kickoff()` and,
on success, stores the stringified result in Chroma via
`collection.add(documents=[str(result)], metadatas=[{"task_id": ..., "topic": ...}],
ids=[f"{task_id}_final"])`, then returns the result.  Returns the new store,
the emitted effects, and the result or the escaping exception. -/
def ResearchCrew.run (crew : ResearchCrew) (topic : String) (o : RunnerOutcome)
    (store : ObjectStore) : ObjectStore × List Effect × Except String String :=
  match o with
  | RunnerOutcome.kickoffRaises msg => (store, [], Except.error msg)
  | RunnerOutcome.addRaises msg _r => (store, [], Except.error msg)
  | RunnerOutcome.success r =>
      (store ++ [{ id := crew.task_id ++ "_final", document := r,
                   task_id := crew.task_id, topic := topic }],
       [Effect.storeWrite (crew.task_id ++ "_final")], Except.ok r)

/-! ### Task Orchestrator (src/app/main.py:30-49 `run_crew_task`) -/

/-- `run_crew_task` (src/app/main.py:30-49), in source statement order:
set status to running, append the start log line, call `ResearchCrew.run`;
on normal return set status completed, set the result payload, append the
success log line; on exception set status failed and append
`f"Error: {str(e)}"`.  Also returns the side-effect trace in program order. -/
def run_crew_task (ts : Tasks) (store : ObjectStore) (task_id topic : String)
    (o : RunnerOutcome) : Tasks × ObjectStore × List Effect :=
  let ts1 := updateTask ts task_id (fun t => { t with status := Status.running })
  let ts2 := updateTask ts1 task_id
    (fun t => { t with logs := t.logs ++ ["Starting research crew..."] })
  let startTrace : List Effect :=
    [Effect.statusSet Status.running, Effect.logAppend "Starting research crew..."]
  match ResearchCrew.run ⟨task_id⟩ topic o store with
  | (store', runTrace, Except.ok r) =>
      let ts3 := updateTask ts2 task_id (fun t => { t with status := Status.completed })
      let ts4 := updateTask ts3 task_id (fun t => { t with result := some [("output", r)] })
      let ts5 := updateTask ts4 task_id
        (fun t => { t with logs := t.logs ++ ["Research completed successfully."] })
      (ts5, store', startTrace ++ runTrace ++
        [Effect.statusSet Status.completed, Effect.resultSet,
         Effect.logAppend "Research completed successfully."])
  | (store', runTrace, Except.error msg) =>
      let ts3 := updateTask ts2 task_id (fun t => { t with status := Status.failed })
      let ts4 := updateTask ts3 task_id
        (fun t => { t with logs := t.logs ++ ["Error: " ++ msg] })
      (ts4, store', startTrace ++ runTrace ++
        [Effect.statusSet Status.failed, Effect.logAppend ("Error: " ++ msg)])

/-- The record-level mutations of `run_crew_task` before the runner call. -/
def startUpdates : List (ResearchTask → ResearchTask) :=
  [fun t => { t with status := Status.running },
   fun t => { t with logs := t.logs ++ ["Starting research crew..."] }]

/-- The record-level mutations of the success branch of `run_crew_task`. -/
def successUpdates (r : String) : List (ResearchTask → ResearchTask) :=
  [fun t => { t with status := Status.completed },
   fun t => { t with result := some [("output", r)] },
   fun t => { t with logs := t.logs ++ ["Research completed successfully."] }]

/-- The record-level mutations of the except branch of `run_crew_task`. -/
def failureUpdates (msg : String) : List (ResearchTask → ResearchTask) :=
  [fun t => { t with status := Status.failed },
   fun t => { t with logs := t.logs ++ ["Error: " ++ msg] }]

/-- All mutations `run_crew_task` applies to its task record, in order. -/
def taskUpdates : RunnerOutcome → List (ResearchTask → ResearchTask)
  | RunnerOutcome.success r => startUpdates ++ successUpdates r
  | RunnerOutcome.kickoffRaises m => startUpdates ++ failureUpdates m
  | RunnerOutcome.addRaises m _ => startUpdates ++ failureUpdates m

def applyUpdates (ts : Tasks) (id : String) (fs : List (ResearchTask → ResearchTask)) : Tasks :=
  fs.foldl (fun acc f => updateTask acc id f) ts

/-- The successive values of one task record through a list of mutations
(initial record included). -/
def statesFrom (t : ResearchTask) : List (ResearchTask → ResearchTask) → List ResearchTask
  | [] => [t]
  | f :: fs => t :: statesFrom (f t) fs

/-! ### Submission endpoint (src/app/main.py:51-63 `start_research`) -/

/-- `ResearchTask` declares `topic: str`; under pydantic v2 (which this code
base uses — see the Pydantic v2 remarks in src/app/tools.py) a non-string
topic value is not coerced and raises `ValidationError`, which escapes the
handler as an internal error (HTTP 500).  A string topic validates. -/
def topicValidates : Value → Bool
  | Value.vStr _ => true
  | _ => false

/-- `start_research` (src/app/main.py:51-63): read `request.get("topic")`;
if falsy, raise `HTTPException(400, "Topic required")`; otherwise build a
fresh `ResearchTask` (pydantic validation of `topic: str` may raise), insert
it into `tasks`, schedule `run_crew_task(task_id, topic)` and return the
record.  Returns (HTTP response, new registry, scheduled background jobs);
`freshId` stands for the generated `str(uuid.uuid4())`. -/
def start_research (ts : Tasks) (request : List (String × Value)) (freshId : String) :
    Except (Nat × String) ResearchTask × Tasks × List (String × String) :=
  let topic := (lookupA request "topic").getD Value.vNone
  if topic.truthy = false then
    (Except.error (400, "Topic required"), ts, [])
  else
    match topic with
    | Value.vStr s =>
        let task := mkResearchTask freshId s
        (Except.ok task, upsert ts freshId (fun _ => task) task, [(freshId, s)])
    | _ => (Except.error (500, "ValidationError"), ts, [])

/-! ### Status Stream Server (src/app/main.py:65-92 `stream_status`) -/

/-- Events yielded by the SSE `event_generator`.  A `resultEv` carries the
result dict that the code stringifies with `str(task.result)`. -/
inductive Event where
  | log : String → Event
  | statusEv : Status → Event
  | resultEv : List (String × String) → Event
  deriving DecidableEq, Repr

/-- `task.status in ["completed", "failed"]`. -/
def isTerminalStatus (s : Status) : Bool :=
  decide (s = Status.completed) || decide (s = Status.failed)

/-- `if task.result:` — Python truthiness of `Optional[Dict]`:
`None` and `{}` are falsy. -/
def resultEvents : Option (List (String × String)) → List Event
  | none => []
  | some [] => []
  | some d => [Event.resultEv d]

/-- The loop body of `event_generator` (src/app/main.py:69-90), one list
entry per polling tick: each tick re-reads `tasks.get(task_id)` (`none` means
the record disappeared and the stream breaks), yields the log lines from
`last_log_idx` on, advances `last_log_idx`, and on a terminal status yields
one `status` event, then a `result` event if the result is truthy, and
breaks; otherwise it sleeps and polls again.  The `schedule` argument is the
sequence of snapshots the successive ticks observe. -/
def eventGen : List (Option ResearchTask) → Nat → List Event
  | [], _ => []
  | none :: _, _ => []
  | some tv :: rest, lastIdx =>
      (tv.logs.drop lastIdx).map Event.log ++
        (if isTerminalStatus tv.status then
          Event.statusEv tv.status :: resultEvents tv.result
        else eventGen rest tv.logs.length)

/-- `stream_status` (src/app/main.py:65-92): 404 when the task id is unknown
at subscription time, otherwise the event stream starting at `last_log_idx = 0`. -/
def stream_status (ts : Tasks) (task_id : String) (schedule : List (Option ResearchTask)) :
    Except Nat (List Event) :=
  if (lookupTask ts task_id).isSome then Except.ok (eventGen schedule 0)
  else Except.error 404

/-! ### Claim Graph Store (src/app/db.py `GraphManager`) -/

/-- networkx node attributes used by this code: `type=...` on every
`add_node`, `verification=...` on claim nodes.  `none` means the attribute
key is absent from the node's attribute dict. -/
structure NodeAttrs where
  type : Option String := none
  verification : Option String := none
  deriving DecidableEq, Repr

/-- networkx edge attributes used by this code: `relation=...`, and
`weight=...` on asserts edges. -/
structure EdgeAttrs where
  relation : Option String := none
  weight : Option Rat := none
  deriving DecidableEq, Repr

/-- Attribute-dict update: a `some` field of `u` overwrites, a `none` field
is an absent keyword argument and leaves the old value (networkx
`add_node`/`add_edge` update semantics). -/
def mergeNodeAttrs (a u : NodeAttrs) : NodeAttrs :=
  { type := match u.type with
      | some t => some t
      | none => a.type,
    verification := match u.verification with
      | some v => some v
      | none => a.verification }

def mergeEdgeAttrs (a u : EdgeAttrs) : EdgeAttrs :=
  { relation := match u.relation with
      | some r => some r
      | none => a.relation,
    weight := match u.weight with
      | some w => some w
      | none => a.weight }

/-- The in-process `nx.DiGraph`, as key-ordered node and edge tables. -/
structure NxDiGraph where
  nodes : List (String × NodeAttrs)
  edges : List ((String × String) × EdgeAttrs)
  deriving DecidableEq, Repr

/-- `nx_graph.add_node(k, **u)`: merge the attributes into an existing node,
or append a new node. -/
def addNode (g : NxDiGraph) (k : String) (u : NodeAttrs) : NxDiGraph :=
  { g with nodes := upsert g.nodes k (fun a => mergeNodeAttrs a u) ⟨none, none⟩ }

/-- `nx_graph.add_edge(k1, k2, **u)`: nodes `k1` and `k2` are automatically
added (with empty attribute dicts) if absent, then the edge attributes are
merged into an existing edge or a new edge is appended. -/
def add_edge (g : NxDiGraph) (k1 k2 : String) (u : EdgeAttrs) : NxDiGraph :=
  { nodes := upsert (upsert g.nodes k1 id ⟨none, none⟩) k2 id ⟨none, none⟩,
    edges := upsert g.edges (k1, k2) (fun a => mergeEdgeAttrs a u) ⟨none, none⟩ }

/-- `GraphManager.add_claim` (src/app/db.py:55-76): two `add_node` calls, an
`add_edge`, `_save_nx()` (the whole-graph pickle write, no in-model state),
then — when the Neo4j driver is connected — the mirror write inside
`try/except`, whose failure is logged and swallowed.  The second component is
`some msg` iff the call raises, which it never does. -/
def add_claim (g : NxDiGraph) (source claim : String) (evidence_strength : Rat)
    (verification : String) (driverPresent : Bool) (remote : Except String Unit) :
    NxDiGraph × Option String :=
  let g1 := addNode g source { type := some "source" }
  let g2 := addNode g1 claim { type := some "claim", verification := some verification }
  let g3 := add_edge g2 source claim
    { relation := some "asserts", weight := some evidence_strength }
  let raised : Option String :=
    if driverPresent then
      match remote with
      | Except.ok _ => none
      | Except.error _e => none
    else none
  (g3, raised)

/-- `GraphManager.add_contradiction` (src/app/db.py:78-90): one `add_edge`
with `relation="contradicts"`, `_save_nx()`, then — when the driver is
connected — the mirror write with NO `try/except`: a remote failure escapes
to the caller after the local graph was already mutated and saved. -/
def add_contradiction (g : NxDiGraph) (claim1 claim2 : String)
    (driverPresent : Bool) (remote : Except String Unit) : NxDiGraph × Option String :=
  let g1 := add_edge g claim1 claim2 { relation := some "contradicts" }
  let raised : Option String :=
    if driverPresent then
      match remote with
      | Except.ok _ => none
      | Except.error e => some e
    else none
  (g1, raised)

/-- The status transitions the spec allows: stay, pending→running, or
running→{completed, failed}. -/
def statusStep (a b : Status) : Prop :=
  a = b ∨ (a = Status.pending ∧ b = Status.running) ∨
    (a = Status.running ∧ (b = Status.completed ∨ b = Status.failed))

/-- One allowed mutation step of a task record: an allowed status move and
append-only logs. -/
def recordStep (a b : ResearchTask) : Prop :=
  statusStep a.status b.status ∧ a.logs <+: b.logs

/-! ### Helper lemmas about the table operations -/

theorem lookupA_upsert_self {κ α : Type} [DecidableEq κ] (l : List (κ × α)) (k : κ)
    (f : α → α) (a₀ : α) :
    lookupA (upsert l k f a₀) k = some (f ((lookupA l k).getD a₀)) := by
  induction l with
  | nil => simp [upsert, lookupA]
  | cons p rest ih =>
      obtain ⟨k', a⟩ := p
      by_cases h : k' = k
      · subst h; simp [upsert, lookupA]
      · simp [upsert, lookupA, h, ih]

theorem lookupA_upsert_ne {κ α : Type} [DecidableEq κ] (l : List (κ × α)) (k k' : κ)
    (f : α → α) (a₀ : α) (hne : k' ≠ k) :
    lookupA (upsert l k f a₀) k' = lookupA l k' := by
  induction l with
  | nil => simp [upsert, lookupA, Ne.symm hne]
  | cons p rest ih =>
      obtain ⟨k'', a⟩ := p
      by_cases h : k'' = k
      · subst h; simp [upsert, lookupA, Ne.symm hne]
      · by_cases h' : k'' = k'
        · subst h'; simp [upsert, lookupA, h]
        · simp [upsert, lookupA, h, h', ih]

theorem countKey_upsert_self {κ α : Type} [DecidableEq κ] (l : List (κ × α)) (k : κ)
    (f : α → α) (a₀ : α) :
    countKey (upsert l k f a₀) k = max (countKey l k) 1 := by
  induction l with
  | nil => simp [upsert, countKey]
  | cons p rest ih =>
      obtain ⟨k', a⟩ := p
      by_cases h : k' = k
      · subst h; simp [upsert, countKey]
      · simp [upsert, countKey, h, ih]

theorem countKey_upsert_ne {κ α : Type} [DecidableEq κ] (l : List (κ × α)) (k k' : κ)
    (f : α → α) (a₀ : α) (hne : k' ≠ k) :
    countKey (upsert l k f a₀) k' = countKey l k' := by
  induction l with
  | nil => simp [upsert, countKey, Ne.symm hne]
  | cons p rest ih =>
      obtain ⟨k'', a⟩ := p
      by_cases h : k'' = k
      · subst h; simp [upsert, countKey]
      · simp [upsert, countKey, h, ih]

theorem countKey_upsert_le_one {κ α : Type} [DecidableEq κ] (l : List (κ × α)) (k : κ)
    (f : α → α) (a₀ : α) (h : ∀ k', countKey l k' ≤ 1) :
    ∀ k', countKey (upsert l k f a₀) k' ≤ 1 := by
  intro k'
  by_cases hk : k' = k
  · subst hk
    rw [countKey_upsert_self]
    have := h k'
    omega
  · rw [countKey_upsert_ne l k k' f a₀ hk]
    exact h k'

theorem upsert_id_of_hasKey {κ α : Type} [DecidableEq κ] (l : List (κ × α)) (k : κ)
    (a₀ : α) (h : hasKey l k = true) : upsert l k id a₀ = l := by
  induction l with
  | nil => simp [hasKey, lookupA] at h
  | cons p rest ih =>
      obtain ⟨k', a⟩ := p
      by_cases hk : k' = k
      · subst hk; simp [upsert]
      · have h' : hasKey rest k = true := by
          simpa [hasKey, lookupA, hk] using h
        simp [upsert, hk, ih h']

theorem lookupTask_updateTask_self (ts : Tasks) (id : String) (f : ResearchTask → ResearchTask) :
    lookupTask (updateTask ts id f) id = (lookupTask ts id).map f := by
  induction ts with
  | nil => rfl
  | cons p rest ih =>
      obtain ⟨k, t⟩ := p
      by_cases h : k = id
      · subst h
        have hu : updateTask ((k, t) :: rest) k f = (k, f t) :: updateTask rest k f := by
          simp [updateTask]
        rw [hu]
        simp [lookupTask, lookupA]
      · have hu : updateTask ((k, t) :: rest) id f = (k, t) :: updateTask rest id f := by
          simp [updateTask, h]
        rw [hu]
        simp only [lookupTask, lookupA, if_neg h]
        exact ih

/-! ### Helper lemmas about the event stream -/

theorem drop_append_isPre (l₁ l₂ : List String) (n : Nat) (h : l₁ <+: l₂)
    (hn : n ≤ l₁.length) : l₁.drop n ++ l₂.drop l₁.length = l₂.drop n := by
  obtain ⟨t, rfl⟩ := h
  rw [List.drop_left, List.drop_append_of_le_length hn]

/-- Unrolling the polling loop: if the snapshots' log lists only grow and the
first terminal snapshot is `term`, the generator emits exactly the log lines
of `term` past index `n`, then one status event, then the result events, and
ignores everything scheduled after `term`. -/
theorem eventGen_run (pre : List ResearchTask) (term : ResearchTask)
    (post : List (Option ResearchTask)) (n : Nat)
    (hpw : List.Pairwise (fun a b => a.logs <+: b.logs) (pre ++ [term]))
    (hpre : ∀ tv ∈ pre, isTerminalStatus tv.status = false)
    (hterm : isTerminalStatus term.status = true)
    (hn : n ≤ (pre.headD term).logs.length) :
    eventGen (pre.map some ++ some term :: post) n =
      (term.logs.drop n).map Event.log ++
        Event.statusEv term.status :: resultEvents term.result := by
  induction pre generalizing n with
  | nil => simp [eventGen, hterm]
  | cons v rest ih =>
      have hcons := List.pairwise_cons.mp hpw
      have hvterm : v.logs <+: term.logs := hcons.1 term (by simp)
      have hnv : v.logs.length ≤ (rest.headD term).logs.length := by
        cases rest with
        | nil => exact (hcons.1 term (by simp)).length_le
        | cons w rest' => exact (hcons.1 w (by simp)).length_le
      have hvnt : isTerminalStatus v.status = false := hpre v (by simp)
      have hn' : n ≤ v.logs.length := hn
      have ihh := ih v.logs.length hcons.2 (fun tv htv => hpre tv (List.mem_cons_of_mem _ htv)) hnv
      have hstep :
          eventGen ((v :: rest).map some ++ some term :: post) n =
            (v.logs.drop n).map Event.log ++
              eventGen (rest.map some ++ some term :: post) v.logs.length := by
        simp [eventGen, hvnt]
      rw [hstep, ihh, ← List.append_assoc, ← List.map_append,
        drop_append_isPre v.logs term.logs n hvterm hn']

/-! ### Helper lemmas about the claim graph -/

theorem add_claim_nodes (g : NxDiGraph) (s c : String) (w : Rat) (v : String)
    (d : Bool) (r : Except String Unit) :
    ((add_claim g s c w v d r).1).nodes =
      upsert (upsert (upsert (upsert g.nodes s
          (fun a => mergeNodeAttrs a { type := some "source" }) ⟨none, none⟩) c
          (fun a => mergeNodeAttrs a { type := some "claim", verification := some v })
          ⟨none, none⟩) s id ⟨none, none⟩) c id ⟨none, none⟩ := rfl

theorem add_claim_edges (g : NxDiGraph) (s c : String) (w : Rat) (v : String)
    (d : Bool) (r : Except String Unit) :
    ((add_claim g s c w v d r).1).edges =
      upsert g.edges (s, c)
        (fun a => mergeEdgeAttrs a { relation := some "asserts", weight := some w })
        ⟨none, none⟩ := rfl

/-! ### The claims -/

/-- C1 (counterexample): the spec claims the per-task side-effect order
log append, then status transition, then persistence write.  On the concrete
success workflow of task "t" the trace is
[statusSet running, logAppend start, storeWrite, statusSet completed,
resultSet, logAppend done]: the store write is at index 2, the terminal
transition at index 3 and its log line at index 5, so the claimed order
(the completion log before the `completed` transition, and every store write
after it) is false. -/
theorem side_effect_order_counterexample :
    ¬ (∀ (ts : Tasks) (store : ObjectStore) (id topic : String) (o : RunnerOutcome) (j : Nat),
        (run_crew_task ts store id topic o).2.2.get? j =
            some (Effect.statusSet Status.completed) →
        (∃ i, i < j ∧ (run_crew_task ts store id topic o).2.2.get? i =
            some (Effect.logAppend "Research completed successfully.")) ∧
        (∀ k s, (run_crew_task ts store id topic o).2.2.get? k =
            some (Effect.storeWrite s) → j < k)) := by
  intro h
  have h3 := h [("t", mkResearchTask "t" "x")] [] "t" "x" (RunnerOutcome.success "r") 3
    (by decide)
  have h32 := h3.2 2 "t_final" (by decide)
  omega

/-- C1 (amended): in every executed workflow the side effects occur in the
order status transition first, then log append: the trace starts with
`statusSet running`, the terminal transition (`completed` or `failed`) is
followed by the log line that describes it (the last effect of the trace),
and every Object Store write happens before the terminal transition (it is
issued inside the Agent Runner call). -/
theorem side_effect_order_amended (ts : Tasks) (store : ObjectStore) (id topic : String)
    (o : RunnerOutcome) :
    ∃ pre post st line,
      (run_crew_task ts store id topic o).2.2 = pre ++ Effect.statusSet st :: post ∧
      (st = Status.completed ∨ st = Status.failed) ∧
      pre.head? = some (Effect.statusSet Status.running) ∧
      post.getLast? = some (Effect.logAppend line) ∧
      (∀ s, Effect.storeWrite s ∉ post) := by
  cases o with
  | success r =>
      refine ⟨[Effect.statusSet Status.running, Effect.logAppend "Starting research crew...",
        Effect.storeWrite (id ++ "_final")],
        [Effect.resultSet, Effect.logAppend "Research completed successfully."],
        Status.completed, "Research completed successfully.",
        rfl, Or.inl rfl, rfl, rfl, ?_⟩
      intro s
      simp
  | kickoffRaises m =>
      refine ⟨[Effect.statusSet Status.running, Effect.logAppend "Starting research crew..."],
        [Effect.logAppend ("Error: " ++ m)], Status.failed, "Error: " ++ m,
        rfl, Or.inr rfl, rfl, rfl, ?_⟩
      intro s
      simp
  | addRaises m r =>
      refine ⟨[Effect.statusSet Status.running, Effect.logAppend "Starting research crew..."],
        [Effect.logAppend ("Error: " ++ m)], Status.failed, "Error: " ++ m,
        rfl, Or.inr rfl, rfl, rfl, ?_⟩
      intro s
      simp

/-- C2: every lifecycle the program gives a task record — creation as pending
by `start_research`, then the mutations of `run_crew_task` for any runner
outcome — moves the status only along pending→running→{completed, failed}
(never re-entering a prior state) and only ever appends to the log; and the
task-registry effect of `run_crew_task` is exactly that update sequence. -/
theorem task_lifecycle_monotone (id topic : String) (o : RunnerOutcome)
    (ts : Tasks) (store : ObjectStore) :
    List.Chain' recordStep (statesFrom (mkResearchTask id topic) (taskUpdates o)) ∧
    (run_crew_task ts store id topic o).1 = applyUpdates ts id (taskUpdates o) := by
  refine ⟨?_, ?_⟩
  · cases o <;>
      simp [statesFrom, taskUpdates, startUpdates, successUpdates, failureUpdates,
        mkResearchTask, recordStep, statusStep, List.chain'_cons]
  · cases o <;> rfl

/-- C3: when the Agent Runner invocation raises (from `crew.kickoff()` or
from the `collection.add` call inside it), the workflow leaves the task with
status failed and a log line containing the exception message, and the
Object Store is unchanged (no document written for the task). -/
theorem runner_failure_marks_failed (ts : Tasks) (store : ObjectStore)
    (id topic msg : String) (t0 : ResearchTask) (o : RunnerOutcome)
    (hmem : lookupTask ts id = some t0) (hraise : runnerError o = some msg) :
    (∃ t', lookupTask (run_crew_task ts store id topic o).1 id = some t' ∧
        t'.status = Status.failed ∧
        (∃ line ∈ t'.logs, ∃ p q, line = p ++ msg ++ q)) ∧
    (run_crew_task ts store id topic o).2.1 = store := by
  cases o with
  | success r => simp [runnerError] at hraise
  | kickoffRaises m =>
      have heq : msg = m := by
        have := hraise
        simp [runnerError] at this
        exact this.symm
      subst heq
      constructor
      · have hl : lookupTask
              (run_crew_task ts store id topic (RunnerOutcome.kickoffRaises msg)).1 id =
            some { t0 with
                   status := Status.failed,
                   logs := t0.logs ++ ["Starting research crew...", "Error: " ++ msg] } := by
          simp [run_crew_task, ResearchCrew.run, lookupTask_updateTask_self, hmem]
        exact ⟨_, hl, rfl, ⟨"Error: " ++ msg, by simp, "Error: ", "", by simp⟩⟩
      · rfl
  | addRaises m r =>
      have heq : msg = m := by
        have := hraise
        simp [runnerError] at this
        exact this.symm
      subst heq
      constructor
      · have hl : lookupTask
              (run_crew_task ts store id topic (RunnerOutcome.addRaises msg r)).1 id =
            some { t0 with
                   status := Status.failed,
                   logs := t0.logs ++ ["Starting research crew...", "Error: " ++ msg] } := by
          simp [run_crew_task, ResearchCrew.run, lookupTask_updateTask_self, hmem]
        exact ⟨_, hl, rfl, ⟨"Error: " ++ msg, by simp, "Error: ", "", by simp⟩⟩
      · rfl

/-- C3 witness at a concrete task and failing runner. -/
theorem runner_failure_marks_failed_witness :
    (∃ t', lookupTask (run_crew_task [("t", mkResearchTask "t" "x")] [] "t" "x"
        (RunnerOutcome.kickoffRaises "boom")).1 "t" = some t' ∧
        t'.status = Status.failed ∧
        (∃ line ∈ t'.logs, ∃ p q, line = p ++ "boom" ++ q)) ∧
    (run_crew_task [("t", mkResearchTask "t" "x")] [] "t" "x"
        (RunnerOutcome.kickoffRaises "boom")).2.1 = [] :=
  runner_failure_marks_failed [("t", mkResearchTask "t" "x")] [] "t" "x" "boom"
    (mkResearchTask "t" "x") (RunnerOutcome.kickoffRaises "boom") rfl rfl

/-- C4: when the Agent Runner returns normally, the workflow leaves the task
with status completed and result `{"output": str(result)}`, and the Object
Store holds exactly one document tagged with the task id, carrying the topic
(given that no document for that fresh task id existed before). -/
theorem runner_success_completes (ts : Tasks) (store : ObjectStore)
    (id topic r : String) (t0 : ResearchTask)
    (hmem : lookupTask ts id = some t0)
    (hfresh : ∀ d ∈ store, d.task_id ≠ id) :
    (∃ t', lookupTask (run_crew_task ts store id topic (RunnerOutcome.success r)).1 id =
          some t' ∧
        t'.status = Status.completed ∧ t'.result = some [("output", r)]) ∧
    (run_crew_task ts store id topic (RunnerOutcome.success r)).2.1.filter
        (fun d => decide (d.task_id = id)) =
      [{ id := id ++ "_final", document := r, task_id := id, topic := topic }] := by
  constructor
  · have hl : lookupTask
          (run_crew_task ts store id topic (RunnerOutcome.success r)).1 id =
        some { t0 with
               status := Status.completed,
               result := some [("output", r)],
               logs := t0.logs ++
                 ["Starting research crew...", "Research completed successfully."] } := by
      simp [run_crew_task, ResearchCrew.run, lookupTask_updateTask_self, hmem]
    exact ⟨_, hl, rfl, rfl⟩
  · have hnil : store.filter (fun d => decide (d.task_id = id)) = [] := by
      rw [List.filter_eq_nil_iff]
      intro d hd
      simp [hfresh d hd]
    simp [run_crew_task, ResearchCrew.run, List.filter_append, hnil]

/-- C4 witness at a concrete task and succeeding runner. -/
theorem runner_success_completes_witness :
    (∃ t', lookupTask (run_crew_task [("t", mkResearchTask "t" "x")] [] "t" "x"
        (RunnerOutcome.success "r")).1 "t" = some t' ∧
        t'.status = Status.completed ∧ t'.result = some [("output", "r")]) ∧
    (run_crew_task [("t", mkResearchTask "t" "x")] [] "t" "x"
        (RunnerOutcome.success "r")).2.1.filter (fun d => decide (d.task_id = "t")) =
      [{ id := "t" ++ "_final", document := "r", task_id := "t", topic := "x" }] :=
  runner_success_completes [("t", mkResearchTask "t" "x")] [] "t" "x" "r"
    (mkResearchTask "t" "x") rfl (by simp)

/-- C5: two `add_claim` calls with the same (source, claim) keys merge: the
final graph has exactly one node keyed `s`, exactly one node keyed `c` whose
verification attribute is the latest `v2`, and exactly one asserts edge
`s → c` whose weight is the latest `w2`; no duplicate node or edge keys are
introduced (assuming the starting graph had none). -/
theorem add_claim_idempotent (g g1 g2 : NxDiGraph) (s c : String) (w1 w2 : Rat)
    (v1 v2 : String) (d1 d2 : Bool) (r1 r2 : Except String Unit)
    (hn : ∀ k, countKey g.nodes k ≤ 1) (he : ∀ k, countKey g.edges k ≤ 1)
    (hg1 : g1 = (add_claim g s c w1 v1 d1 r1).1)
    (hg2 : g2 = (add_claim g1 s c w2 v2 d2 r2).1) :
    countKey g2.nodes s = 1 ∧ countKey g2.nodes c = 1 ∧
    (∃ a, lookupA g2.nodes c = some a ∧ a.verification = some v2) ∧
    countKey g2.edges (s, c) = 1 ∧
    (∃ e, lookupA g2.edges (s, c) = some e ∧
        e.relation = some "asserts" ∧ e.weight = some w2) ∧
    (∀ k, countKey g2.nodes k ≤ 1) ∧ (∀ k, countKey g2.edges k ≤ 1) := by
  subst hg1
  subst hg2
  refine ⟨?_, ?_, ?_, ?_, ?_, ?_, ?_⟩
  · by_cases hsc : s = c
    · subst hsc
      simp only [add_claim_nodes, countKey_upsert_self]
      have := hn s
      omega
    · have hcs : c ≠ s := Ne.symm hsc
      simp only [add_claim_nodes, countKey_upsert_self, countKey_upsert_ne _ _ _ _ _ hsc,
        countKey_upsert_ne _ _ _ _ _ hcs]
      have := hn s
      omega
  · by_cases hsc : s = c
    · subst hsc
      simp only [add_claim_nodes, countKey_upsert_self]
      have := hn s
      omega
    · have hcs : c ≠ s := Ne.symm hsc
      simp only [add_claim_nodes, countKey_upsert_self, countKey_upsert_ne _ _ _ _ _ hsc,
        countKey_upsert_ne _ _ _ _ _ hcs]
      have := hn c
      omega
  · by_cases hsc : s = c
    · subst hsc
      simp only [add_claim_nodes, lookupA_upsert_self, Option.getD_some, id_eq]
      exact ⟨_, rfl, rfl⟩
    · have hcs : c ≠ s := Ne.symm hsc
      simp only [add_claim_nodes, lookupA_upsert_self, Option.getD_some, id_eq,
        lookupA_upsert_ne _ _ _ _ _ hcs]
      exact ⟨_, rfl, rfl⟩
  · simp only [add_claim_edges, countKey_upsert_self]
    have := he (s, c)
    omega
  · simp only [add_claim_edges, lookupA_upsert_self, Option.getD_some]
    exact ⟨_, rfl, rfl, rfl⟩
  · simp only [add_claim_nodes]
    exact countKey_upsert_le_one _ _ _ _ (countKey_upsert_le_one _ _ _ _
      (countKey_upsert_le_one _ _ _ _ (countKey_upsert_le_one _ _ _ _
        (countKey_upsert_le_one _ _ _ _ (countKey_upsert_le_one _ _ _ _
          (countKey_upsert_le_one _ _ _ _ (countKey_upsert_le_one _ _ _ _ hn)))))))
  · simp only [add_claim_edges]
    exact countKey_upsert_le_one _ _ _ _ (countKey_upsert_le_one _ _ _ _ he)

/-- C5 witness: a concrete graph, merged twice with different weights and
verification values. -/
theorem add_claim_idempotent_witness :
    countKey ((add_claim (add_claim ⟨[], []⟩ "s" "c" 1 "pending" true (Except.ok ())).1
        "s" "c" 2 "verified" false (Except.error "down")).1).nodes "s" = 1 ∧
    countKey ((add_claim (add_claim ⟨[], []⟩ "s" "c" 1 "pending" true (Except.ok ())).1
        "s" "c" 2 "verified" false (Except.error "down")).1).nodes "c" = 1 ∧
    (∃ a, lookupA ((add_claim (add_claim ⟨[], []⟩ "s" "c" 1 "pending" true (Except.ok ())).1
        "s" "c" 2 "verified" false (Except.error "down")).1).nodes "c" = some a ∧
      a.verification = some "verified") ∧
    countKey ((add_claim (add_claim ⟨[], []⟩ "s" "c" 1 "pending" true (Except.ok ())).1
        "s" "c" 2 "verified" false (Except.error "down")).1).edges ("s", "c") = 1 ∧
    (∃ e, lookupA ((add_claim (add_claim ⟨[], []⟩ "s" "c" 1 "pending" true (Except.ok ())).1
        "s" "c" 2 "verified" false (Except.error "down")).1).edges ("s", "c") = some e ∧
      e.relation = some "asserts" ∧ e.weight = some 2) ∧
    (∀ k, countKey ((add_claim (add_claim ⟨[], []⟩ "s" "c" 1 "pending" true (Except.ok ())).1
        "s" "c" 2 "verified" false (Except.error "down")).1).nodes k ≤ 1) ∧
    (∀ k, countKey ((add_claim (add_claim ⟨[], []⟩ "s" "c" 1 "pending" true (Except.ok ())).1
        "s" "c" 2 "verified" false (Except.error "down")).1).edges k ≤ 1) :=
  add_claim_idempotent ⟨[], []⟩ _ _ "s" "c" 1 2 "pending" "verified" true false
    (Except.ok ()) (Except.error "down") (fun k => by simp [countKey])
    (fun k => by simp [countKey]) rfl rfl

/-- C6 (counterexample): the spec claims `add_contradiction` creates no nodes
under any input.  On the empty graph, `add_contradiction g "a" "b"` goes
through networkx `add_edge`, which auto-creates both endpoint nodes: the node
table grows from length 0 to length 2, refuting the claim. -/
theorem add_contradiction_counterexample :
    ¬ ((∀ (g : NxDiGraph) (c1 c2 : String) (d : Bool) (r : Except String Unit),
          hasKey g.nodes c1 = true → hasKey g.nodes c2 = true →
          ((add_contradiction g c1 c2 d r).1).nodes = g.nodes) ∧
       (∀ (g : NxDiGraph) (c1 c2 : String) (d : Bool) (r : Except String Unit),
          (((add_contradiction g c1 c2 d r).1).nodes).length = g.nodes.length)) := by
  rintro ⟨-, h⟩
  have h2 := h ⟨[], []⟩ "a" "b" false (Except.ok ())
  exact absurd h2 (by decide)

/-- C6 (amended): when both claim nodes already exist, `add_contradiction`
leaves the node table unchanged and merges the contradicts edge; but when an
endpoint is missing, networkx `add_edge` silently creates it, so the
no-node-creation guarantee only holds under the both-exist precondition. -/
theorem add_contradiction_frame (g : NxDiGraph) (c1 c2 : String) (d : Bool)
    (r : Except String Unit) (h1 : hasKey g.nodes c1 = true)
    (h2 : hasKey g.nodes c2 = true) :
    ((add_contradiction g c1 c2 d r).1).nodes = g.nodes ∧
    (∃ e, lookupA ((add_contradiction g c1 c2 d r).1).edges (c1, c2) = some e ∧
        e.relation = some "contradicts") := by
  constructor
  · show (add_edge g c1 c2 { relation := some "contradicts" }).nodes = g.nodes
    simp only [add_edge]
    rw [upsert_id_of_hasKey g.nodes c1 _ h1, upsert_id_of_hasKey g.nodes c2 _ h2]
  · show ∃ e, lookupA (add_edge g c1 c2 { relation := some "contradicts" }).edges (c1, c2) =
        some e ∧ e.relation = some "contradicts"
    simp only [add_edge, lookupA_upsert_self]
    exact ⟨_, rfl, rfl⟩

/-- C6 witness: both claims present in a concrete graph. -/
theorem add_contradiction_frame_witness :
    ((add_contradiction ⟨[("a", ⟨some "claim", none⟩), ("b", ⟨some "claim", none⟩)], []⟩
        "a" "b" true (Except.ok ())).1).nodes =
      [("a", ⟨some "claim", none⟩), ("b", ⟨some "claim", none⟩)] ∧
    (∃ e, lookupA ((add_contradiction
        ⟨[("a", ⟨some "claim", none⟩), ("b", ⟨some "claim", none⟩)], []⟩
        "a" "b" true (Except.ok ())).1).edges ("a", "b") = some e ∧
      e.relation = some "contradicts") :=
  add_contradiction_frame ⟨[("a", ⟨some "claim", none⟩), ("b", ⟨some "claim", none⟩)], []⟩
    "a" "b" true (Except.ok ()) (by decide) (by decide)

/-- C7 (counterexample): the spec claims that for every graph mutation a
remote-mirror failure is swallowed.  `add_claim` does swallow it, but
`add_contradiction` has no `try/except`: with the driver connected and the
remote write failing with "down", the call raises "down" to its caller. -/
theorem remote_failure_swallowed_counterexample :
    ¬ (∀ (g : NxDiGraph) (s c : String) (w : Rat) (v : String)
         (c1 c2 : String) (r : Except String Unit),
        (add_claim g s c w v true r).2 = none ∧
        (add_contradiction g c1 c2 true r).2 = none) := by
  intro h
  have h2 := (h ⟨[], []⟩ "s" "c" 1 "verified" "a" "b" (Except.error "down")).2
  exact absurd h2 (by decide)

/-- C7 (amended): a remote-mirror failure is swallowed by `add_claim` (the
call returns normally) but escapes `add_contradiction`; in both cases the
local in-process graph is exactly the same as if the remote write had
succeeded (the local mutation and disk save happen before the remote
attempt). -/
theorem remote_failure_handling (g : NxDiGraph) (s c : String) (w : Rat) (v : String)
    (e : String) (c1 c2 : String) :
    ((add_claim g s c w v true (Except.error e)).2 = none ∧
     (add_claim g s c w v true (Except.error e)).1 =
       (add_claim g s c w v true (Except.ok ())).1) ∧
    ((add_contradiction g c1 c2 true (Except.error e)).2 = some e ∧
     (add_contradiction g c1 c2 true (Except.error e)).1 =
       (add_contradiction g c1 c2 true (Except.ok ())).1) :=
  ⟨⟨rfl, rfl⟩, ⟨rfl, rfl⟩⟩

/-- C8: for a subscriber to an existing task, over any polling schedule whose
snapshots have prefix-growing logs and whose first terminal snapshot is
`term`, the stream is exactly: every log line visible at the terminal
observation, as one `log` event each in append order, then exactly one
`status` event with the terminal status, then one `result` event iff a
(non-empty, as the program always produces) result payload is present — and
nothing after, whatever is scheduled later.  In particular the sequence is
finite for every task that reaches a terminal state. -/
theorem stream_status_event_sequence (ts : Tasks) (tid : String)
    (pre : List ResearchTask) (term : ResearchTask) (post : List (Option ResearchTask))
    (hex : (lookupTask ts tid).isSome = true)
    (hgrow : List.Chain' (fun a b => a.logs <+: b.logs) (pre ++ [term]))
    (hpre : ∀ tv ∈ pre, isTerminalStatus tv.status = false)
    (hterm : isTerminalStatus term.status = true)
    (hres : term.result ≠ some []) :
    stream_status ts tid (pre.map some ++ some term :: post) =
      Except.ok (term.logs.map Event.log ++
        Event.statusEv term.status ::
          (match term.result with
           | none => []
           | some d => [Event.resultEv d])) := by
  haveI : IsTrans ResearchTask (fun a b => a.logs <+: b.logs) :=
    ⟨fun _ _ _ hab hbc => hab.trans hbc⟩
  have hpw := List.chain'_iff_pairwise.mp hgrow
  have hrun := eventGen_run pre term post 0 hpw hpre hterm (Nat.zero_le _)
  have hresEv : resultEvents term.result =
      (match term.result with
       | none => ([] : List Event)
       | some d => [Event.resultEv d]) := by
    cases hr : term.result with
    | none => rfl
    | some d =>
        cases d with
        | nil => exact absurd hr hres
        | cons x xs => rfl
  simp only [stream_status, hex, if_true]
  rw [hrun, hresEv]
  simp

/-- C8 witness: concrete schedule of a running snapshot, then a completed
snapshot, then a stale tick the stream never reaches. -/
theorem stream_status_event_sequence_witness :
    stream_status [("t", mkResearchTask "t" "x")] "t"
        ([⟨"t", "x", Status.running, ["l1"], none⟩].map some ++
          some ⟨"t", "x", Status.completed, ["l1", "l2"], some [("output", "r")]⟩ :: [none]) =
      Except.ok [Event.log "l1", Event.log "l2", Event.statusEv Status.completed,
        Event.resultEv [("output", "r")]] :=
  stream_status_event_sequence [("t", mkResearchTask "t" "x")] "t"
    [⟨"t", "x", Status.running, ["l1"], none⟩]
    ⟨"t", "x", Status.completed, ["l1", "l2"], some [("output", "r")]⟩ [none]
    (by decide)
    (List.chain'_cons.mpr ⟨⟨["l2"], rfl⟩, List.chain'_singleton _⟩)
    (by intro tv htv; rw [List.mem_singleton] at htv; subst htv; decide)
    (by decide) (by decide)

/-- C9 (counterexample): the spec claims a 400 rejection exactly for a
missing topic and a created pending task otherwise.  The request
`{"topic": ""}` has the topic key present, yet `if not topic:` rejects it
with 400 and no task record is created, refuting the "otherwise" branch. -/
theorem start_research_counterexample :
    ¬ (∀ (ts : Tasks) (req : List (String × Value)) (fid : String),
        (lookupA req "topic" = none →
          start_research ts req fid = (Except.error (400, "Topic required"), ts, [])) ∧
        (lookupA req "topic" ≠ none →
          ∃ task, (start_research ts req fid).1 = Except.ok task ∧
            task.status = Status.pending ∧ task.logs = [] ∧ task.result = none ∧
            lookupTask (start_research ts req fid).2.1 fid = some task)) := by
  intro h
  obtain ⟨task, htask, -⟩ :=
    (h [] [("topic", Value.vStr "")] "t1").2 (by decide)
  rw [show (start_research [] [("topic", Value.vStr "")] "t1").1 =
      Except.error (400, "Topic required") from rfl] at htask
  exact Except.noConfusion htask

/-- C9 (amended): the request is rejected with 400 (and the registry is
untouched) exactly when the topic value is absent or falsy; for a present
non-empty string topic, a record with the given fresh id is returned and
inserted with status pending, empty log and no result, immediately
retrievable by that id, and no other id's record is disturbed. -/
theorem start_research_amended (ts : Tasks) (req : List (String × Value)) (fid : String) :
    (Value.truthy ((lookupA req "topic").getD Value.vNone) = false →
      start_research ts req fid = (Except.error (400, "Topic required"), ts, [])) ∧
    (∀ s : String, lookupA req "topic" = some (Value.vStr s) → s ≠ "" →
      (start_research ts req fid).1 = Except.ok (mkResearchTask fid s) ∧
      lookupTask (start_research ts req fid).2.1 fid = some (mkResearchTask fid s) ∧
      (mkResearchTask fid s).status = Status.pending ∧
      (mkResearchTask fid s).logs = [] ∧ (mkResearchTask fid s).result = none ∧
      (∀ id', id' ≠ fid →
        lookupTask (start_research ts req fid).2.1 id' = lookupTask ts id')) := by
  constructor
  · intro hfalsy
    simp [start_research, hfalsy]
  · intro s hs hsne
    have hts : (lookupA req "topic").getD Value.vNone = Value.vStr s := by rw [hs]; rfl
    have htr : Value.truthy (Value.vStr s) = true := by simp [Value.truthy, hsne]
    refine ⟨?_, ?_, rfl, rfl, rfl, ?_⟩
    · simp [start_research, hts, htr]
    · show lookupA (start_research ts req fid).2.1 fid = some (mkResearchTask fid s)
      simp [start_research, hts, htr, lookupA_upsert_self]
    · intro id' hid
      show lookupA (start_research ts req fid).2.1 id' = lookupA ts id'
      simp [start_research, hts, htr, lookupA_upsert_ne _ _ _ _ _ hid]

/-- C9 witness: a missing topic is rejected; the topic "hypertension" is
accepted, inserted pending and retrievable. -/
theorem start_research_amended_witness :
    start_research [] [] "t1" = (Except.error (400, "Topic required"), [], []) ∧
    (start_research [] [("topic", Value.vStr "hypertension")] "t1").1 =
      Except.ok (mkResearchTask "t1" "hypertension") ∧
    lookupTask (start_research [] [("topic", Value.vStr "hypertension")] "t1").2.1 "t1" =
      some (mkResearchTask "t1" "hypertension") :=
  ⟨(start_research_amended [] [] "t1").1 (by decide),
   ((start_research_amended [] [("topic", Value.vStr "hypertension")] "t1").2
      "hypertension" (by decide) (by decide)).1,
   (((start_research_amended [] [("topic", Value.vStr "hypertension")] "t1").2
      "hypertension" (by decide) (by decide)).2).1⟩

/-- C10 (counterexample): the spec claims any truthy non-string topic (e.g. a
number) is accepted and a task is created.  On `{"topic": 5}` the 400 check
passes, but `ResearchTask(task_id=..., topic=5)` fails pydantic v2 validation
of `topic: str`, so the handler errors and no task is ever created. -/
theorem topic_validation_counterexample :
    ¬ (∀ (ts : Tasks) (req : List (String × Value)) (fid : String),
        ((start_research ts req fid).1 = Except.error (400, "Topic required") ↔
          Value.truthy ((lookupA req "topic").getD Value.vNone) = false) ∧
        (∀ v, lookupA req "topic" = some v → v.truthy = true →
          ∃ task, (start_research ts req fid).1 = Except.ok task ∧
            lookupTask (start_research ts req fid).2.1 fid = some task)) := by
  intro h
  obtain ⟨task, htask, -⟩ :=
    (h [] [("topic", Value.vInt 5)] "t1").2 (Value.vInt 5) (by decide) (by decide)
  rw [show (start_research [] [("topic", Value.vInt 5)] "t1").1 =
      Except.error (500, "ValidationError") from rfl] at htask
  exact absurd htask (by simp)

/-- C10 (amended): the 400 rejection happens exactly when the topic value is
absent or falsy (so `{"topic": ""}` is rejected although the key is
present), and a truthy non-string topic is not accepted either: it passes
the 400 check but fails `ResearchTask` validation (`topic: str`, pydantic
v2), erroring out with no task created. -/
theorem topic_validation_amended (ts : Tasks) (req : List (String × Value)) (fid : String) :
    ((start_research ts req fid).1 = Except.error (400, "Topic required") ↔
      Value.truthy ((lookupA req "topic").getD Value.vNone) = false) ∧
    (∀ v, lookupA req "topic" = some v → v.truthy = true → topicValidates v = false →
      (start_research ts req fid).1 = Except.error (500, "ValidationError") ∧
      (start_research ts req fid).2.1 = ts) := by
  constructor
  · by_cases ht : Value.truthy ((lookupA req "topic").getD Value.vNone) = false
    · constructor
      · intro _; exact ht
      · intro _; simp [start_research, ht]
    · have ht' : Value.truthy ((lookupA req "topic").getD Value.vNone) = true := by
        revert ht
        cases Value.truthy ((lookupA req "topic").getD Value.vNone) <;> simp
      constructor
      · intro heq
        exfalso
        revert heq
        cases hv : (lookupA req "topic").getD Value.vNone with
        | vNone => rw [hv] at ht'; exact absurd ht' (by decide)
        | vStr s =>
            rw [hv] at ht'
            simp [start_research, hv, ht']
        | vInt n => simp [start_research, hv, hv ▸ ht']
        | vBool b => simp [start_research, hv, hv ▸ ht']
      · intro hf
        rw [hf] at ht'
        exact absurd ht' (by decide)
  · intro v hv hvt hvs
    have hts : (lookupA req "topic").getD Value.vNone = v := by rw [hv]; rfl
    cases v with
    | vNone => simp [Value.truthy] at hvt
    | vStr s => simp [topicValidates] at hvs
    | vInt n => exact ⟨by simp [start_research, hts, hvt], by simp [start_research, hts, hvt]⟩
    | vBool b => exact ⟨by simp [start_research, hts, hvt], by simp [start_research, hts, hvt]⟩

/-- C10 witness: the empty-string topic is rejected with 400; the numeric
topic 5 passes the 400 check but fails validation with no task created. -/
theorem topic_validation_amended_witness :
    ((start_research [] [("topic", Value.vStr "")] "t1").1 =
        Except.error (400, "Topic required")) ∧
    ((start_research [] [("topic", Value.vInt 5)] "t1").1 =
        Except.error (500, "ValidationError") ∧
      (start_research [] [("topic", Value.vInt 5)] "t1").2.1 = []) :=
  ⟨(topic_validation_amended [] [("topic", Value.vStr "")] "t1").1.mpr (by decide),
   (topic_validation_amended [] [("topic", Value.vInt 5)] "t1").2
      (Value.vInt 5) (by decide) (by decide) (by decide)⟩

end App
